import Mathlib

/-!
Formal model of the llm-rpg turn-resolution core: the mutable `Agent` and
`Enemy` stat records, the combat loop of `CombatSystem`, the combat-action
fallback of `AgentAI`, the retry loop of `OllamaClient`, and the template
cycling of `EventTemplateSelector`.

Modelling conventions:
- JavaScript numbers are modelled as rationals (`ℚ`); intermediate damage
  values can be fractional, exactly as in the source.
- `Math.max` / `Math.min` / `Math.floor` are modelled by the executable
  `jmax` / `jmin` / `jfloor` below (bridged to Mathlib's `max`, `min`, `⌊⌋`).
- `Math.random()` draws are passed in as explicit parameters.
- In-place mutation is modelled by state passing: a method that mutates its
  receiver returns the updated record (paired with its return value).
-/

/-- Model of Math.max on rationals. -/
def jmax (a b : ℚ) : ℚ := if a ≤ b then b else a

/-- Model of Math.min on rationals. -/
def jmin (a b : ℚ) : ℚ := if a ≤ b then a else b

/-- Model of Math.floor on rationals, kept executable via Rat.floor. -/
def jfloor (q : ℚ) : ℚ := (Rat.floor q : ℚ)

theorem jmax_eq (a b : ℚ) : jmax a b = max a b := by
  unfold jmax
  rcases le_total a b with h | h
  · simp [h, max_eq_right h]
  · rcases eq_or_lt_of_le h with rfl | hlt
    · simp
    · simp [not_le.mpr hlt, max_eq_left h]

theorem jmin_eq (a b : ℚ) : jmin a b = min a b := by
  unfold jmin
  rcases le_total a b with h | h
  · simp [h, min_eq_left h]
  · rcases eq_or_lt_of_le h with rfl | hlt
    · simp
    · simp [not_le.mpr hlt, min_eq_right h]

theorem jfloor_eq (q : ℚ) : jfloor q = (⌊q⌋ : ℚ) := by
  unfold jfloor
  norm_num [Rat.floor_def', Rat.floor_def]

/-- Agent record, from `Agent.ts` (class fields of `Agent`). -/
structure Agent where
  name : String
  hp : ℚ
  maxHp : ℚ
  attack : ℚ
  mind : ℚ
  personality : String
  flaw : String
  signatureSkill : String
  trauma : List String
  isDefending : Bool
  spriteKey : String
  color : Nat
deriving Repr, DecidableEq

namespace Agent

/-- Constructor `new Agent(name, color, spriteKey)`. -/
def create (name : String) (color : Nat) (spriteKey : String) : Agent :=
  { name := name, hp := 100, maxHp := 100, attack := 5, mind := 5,
    personality := "", flaw := "", signatureSkill := "", trauma := [],
    isDefending := false, spriteKey := spriteKey, color := color }

/-- Method `isAlive()`: `this.hp > 0`. -/
def isAlive (a : Agent) : Bool := decide (0 < a.hp)

/-- Method `takeDamage(amount)`: halves (floored) when defending, clamps hp
at 0, clears the defending flag, returns the applied damage. -/
def takeDamage (a : Agent) (amount : ℚ) : ℚ × Agent :=
  let actualDamage := if a.isDefending then jfloor (amount * (1/2)) else amount
  (actualDamage,
    { a with hp := jmax 0 (a.hp - actualDamage), isDefending := false })

/-- Method `heal(amount)`: caps hp at maxHp, returns the actual delta. -/
def heal (a : Agent) (amount : ℚ) : ℚ × Agent :=
  let newHp := jmin a.maxHp (a.hp + amount)
  (newHp - a.hp, { a with hp := newHp })

/-- Method `defend()`. -/
def defend (a : Agent) : Agent := { a with isDefending := true }

/-- Method `resetDefense()`. -/
def resetDefense (a : Agent) : Agent := { a with isDefending := false }

/-- Method `addTrauma(trauma)`: appends only if not already present. -/
def addTrauma (a : Agent) (t : String) : Agent :=
  if a.trauma.contains t then a else { a with trauma := a.trauma ++ [t] }

/-- Argument shape of `modifyStats` (absent fields are `none`). -/
structure StatChanges where
  hp : Option ℚ
  attack : Option ℚ
  mind : Option ℚ
deriving Repr, DecidableEq

/-- Method `modifyStats(changes)`: hp clamped to [0, maxHp], attack and mind
floored at 1. -/
def modifyStats (a : Agent) (changes : StatChanges) : Agent :=
  let a1 := match changes.hp with
    | some d => { a with hp := jmax 0 (jmin a.maxHp (a.hp + d)) }
    | none => a
  let a2 := match changes.attack with
    | some d => { a1 with attack := jmax 1 (a1.attack + d) }
    | none => a1
  match changes.mind with
    | some d => { a2 with mind := jmax 1 (a2.mind + d) }
    | none => a2

/-- Static `createRandom(name, color)`; `r1`, `r2`, `r3` are the three
`Math.random()` draws, each in [0, 1). -/
def createRandom (name : String) (color : Nat) (r1 r2 r3 : ℚ) : Agent :=
  let base := create name color "default-agent"
  let newMaxHp := 80 + jfloor (r1 * 40)
  { base with
    maxHp := newMaxHp
    hp := newMaxHp
    attack := 3 + jfloor (r2 * 5)
    mind := 3 + jfloor (r3 * 5) }

end Agent

/-- Enemy record, from `Enemy.ts` (class fields of `Enemy`). -/
structure Enemy where
  name : String
  type : String
  hp : ℚ
  maxHp : ℚ
  attack : ℚ
  color : Nat
  abilities : List String
  isDefending : Bool
deriving Repr, DecidableEq

namespace Enemy

/-- Method `isAlive()`: `this.hp > 0`. -/
def isAlive (e : Enemy) : Bool := decide (0 < e.hp)

/-- Method `takeDamage(amount)`: identical logic to `Agent.takeDamage`. -/
def takeDamage (e : Enemy) (amount : ℚ) : ℚ × Enemy :=
  let actualDamage := if e.isDefending then jfloor (amount * (1/2)) else amount
  (actualDamage,
    { e with hp := jmax 0 (e.hp - actualDamage), isDefending := false })

/-- Method `defend()`. -/
def defend (e : Enemy) : Enemy := { e with isDefending := true }

end Enemy

/-- Membership bridge for the List model of `Array.includes` / `Set.has`. -/
theorem contains_iff (l : List String) (x : String) : l.contains x = true ↔ x ∈ l := by
  simp

/-- Field-level description of `Agent.modifyStats`. -/
theorem modifyStats_spec (a : Agent) (c : Agent.StatChanges) :
    (a.modifyStats c).hp = (match c.hp with
      | some d => max 0 (min a.maxHp (a.hp + d))
      | none => a.hp) ∧
    (a.modifyStats c).attack = (match c.attack with
      | some d => max 1 (a.attack + d)
      | none => a.attack) ∧
    (a.modifyStats c).mind = (match c.mind with
      | some d => max 1 (a.mind + d)
      | none => a.mind) ∧
    (a.modifyStats c).maxHp = a.maxHp := by
  rcases c with ⟨ch, ca, cm⟩
  cases ch <;> cases ca <;> cases cm <;>
    simp [Agent.modifyStats, jmax_eq, jmin_eq]

/-- Field-level description of `Agent.takeDamage`. -/
theorem takeDamage_fields (a : Agent) (amount : ℚ) :
    ((a.takeDamage amount).1 =
      if a.isDefending then ((⌊amount * (1/2 : ℚ)⌋ : ℤ) : ℚ) else amount) ∧
    (a.takeDamage amount).2.hp = max 0 (a.hp - (a.takeDamage amount).1) ∧
    0 ≤ (a.takeDamage amount).2.hp ∧
    (a.takeDamage amount).2.isDefending = false ∧
    (a.takeDamage amount).2.maxHp = a.maxHp ∧
    (a.takeDamage amount).2.attack = a.attack ∧
    (a.takeDamage amount).2.mind = a.mind := by
  cases ha : a.isDefending <;>
    simp [Agent.takeDamage, ha, jfloor_eq, jmax_eq, le_max_left]

/-- Field-level description of `Enemy.takeDamage`. -/
theorem ene_takeDamage_fields (e : Enemy) (amount : ℚ) :
    ((e.takeDamage amount).1 =
      if e.isDefending then ((⌊amount * (1/2 : ℚ)⌋ : ℤ) : ℚ) else amount) ∧
    (e.takeDamage amount).2.hp = max 0 (e.hp - (e.takeDamage amount).1) ∧
    0 ≤ (e.takeDamage amount).2.hp ∧
    (e.takeDamage amount).2.isDefending = false := by
  cases he : e.isDefending <;>
    simp [Enemy.takeDamage, he, jfloor_eq, jmax_eq, le_max_left]

/-- Field-level description of `Agent.heal`. -/
theorem heal_fields (a : Agent) (amount : ℚ) :
    (a.heal amount).2.hp = min a.maxHp (a.hp + amount) ∧
    (a.heal amount).1 = (a.heal amount).2.hp - a.hp ∧
    (a.heal amount).2.maxHp = a.maxHp ∧
    (a.heal amount).2.attack = a.attack ∧
    (a.heal amount).2.mind = a.mind := by
  simp [Agent.heal, jmin_eq]

/-- Claim C2: `takeDamage(amount)` (on both `Agent` and `Enemy`) applies
`floor(amount * 0.5)` when the receiver is defending and exactly `amount`
(possibly fractional) otherwise, clamps hp at 0, clears the defending flag,
and returns the applied damage. -/
theorem takeDamage_correct (a : Agent) (e : Enemy) (amount : ℚ) :
    ((a.takeDamage amount).1 =
      if a.isDefending then ((⌊amount * (1/2 : ℚ)⌋ : ℤ) : ℚ) else amount) ∧
    (a.takeDamage amount).2.hp = max 0 (a.hp - (a.takeDamage amount).1) ∧
    0 ≤ (a.takeDamage amount).2.hp ∧
    (a.takeDamage amount).2.isDefending = false ∧
    ((e.takeDamage amount).1 =
      if e.isDefending then ((⌊amount * (1/2 : ℚ)⌋ : ℤ) : ℚ) else amount) ∧
    (e.takeDamage amount).2.hp = max 0 (e.hp - (e.takeDamage amount).1) ∧
    0 ≤ (e.takeDamage amount).2.hp ∧
    (e.takeDamage amount).2.isDefending = false := by
  obtain ⟨a1, a2, a3, a4, _⟩ := takeDamage_fields a amount
  obtain ⟨e1, e2, e3, e4⟩ := ene_takeDamage_fields e amount
  exact ⟨a1, a2, a3, a4, e1, e2, e3, e4⟩

/-- Agent used in the concrete healing example of the spec. -/
def woundedAgent : Agent :=
  { Agent.create "Mira" 0 "default-agent" with hp := 90, maxHp := 100 }

/-- Claim C4: `heal(amount)` caps hp at `maxHp` and returns the actual delta
applied, not the requested amount; healing 50 at hp 90 / maxHp 100 returns
10. -/
theorem heal_correct (a : Agent) (amount : ℚ) :
    (a.heal amount).2.hp ≤ a.maxHp ∧
    (a.heal amount).2.hp = min a.maxHp (a.hp + amount) ∧
    (a.heal amount).1 = (a.heal amount).2.hp - a.hp ∧
    (woundedAgent.heal 50).1 = 10 := by
  obtain ⟨h1, h2, _⟩ := heal_fields a amount
  refine ⟨?_, h1, h2, ?_⟩
  · rw [h1]; exact min_le_left _ _
  · norm_num [Agent.heal, woundedAgent, Agent.create, jmin]

/-- Stat invariant stated in the spec for `Agent`. -/
def AgentInvariant (a : Agent) : Prop :=
  0 ≤ a.hp ∧ a.hp ≤ a.maxHp ∧ 1 ≤ a.attack ∧ 1 ≤ a.mind

/-- Agent satisfying the invariant on which claim C3 fails as stated. -/
def stressAgent : Agent :=
  { Agent.create "Rook" 0 "default-agent" with hp := 90, mind := 500 }

/-- Claim C3 counterexample: `stressAgent` satisfies the invariant, yet
`heal(-200)` drives hp below 0 and `modifyStats({mind: -100})` leaves mind
at 400, not 1. -/
theorem invariant_claim_fails :
    AgentInvariant stressAgent ∧
    (stressAgent.heal (-200)).2.hp < 0 ∧
    (stressAgent.modifyStats
      { hp := none, attack := none, mind := some (-100) }).mind ≠ 1 := by
  refine ⟨⟨?_, ?_, ?_, ?_⟩, ?_, ?_⟩ <;>
    norm_num [stressAgent, AgentInvariant, Agent.create, Agent.heal,
      Agent.modifyStats, jmin, jmax]

/-- Claim C3 (amended): on any agent satisfying the invariant, every mutator
preserves it provided `takeDamage` and `heal` receive nonnegative amounts
(`modifyStats`, `defend`, `resetDefense`, `addTrauma` need no side
condition); `modifyStats({mind: -100})` yields mind 1 whenever mind is at
most 101, `modifyStats({hp: -1000})` yields hp 0 whenever hp is at most
1000, and `modifyStats` never raises hp above `maxHp` or drops attack or
mind below 1. -/
theorem mutators_preserve_invariant (a : Agent) (amount : ℚ)
    (c : Agent.StatChanges) (t : String)
    (hinv : AgentInvariant a) (hamt : 0 ≤ amount) :
    AgentInvariant (a.takeDamage amount).2 ∧
    AgentInvariant (a.heal amount).2 ∧
    AgentInvariant (a.modifyStats c) ∧
    AgentInvariant a.defend ∧
    AgentInvariant a.resetDefense ∧
    AgentInvariant (a.addTrauma t) ∧
    (a.mind ≤ 101 →
      (a.modifyStats { hp := none, attack := none, mind := some (-100) }).mind
        = 1) ∧
    (a.hp ≤ 1000 →
      (a.modifyStats { hp := some (-1000), attack := none, mind := none }).hp
        = 0) ∧
    (a.modifyStats c).hp ≤ a.maxHp ∧
    1 ≤ (a.modifyStats c).attack ∧ 1 ≤ (a.modifyStats c).mind := by
  obtain ⟨h0, hm, hatk, hmind⟩ := hinv
  have hmax0 : (0 : ℚ) ≤ a.maxHp := le_trans h0 hm
  obtain ⟨mhp, matk, mmind, mmax⟩ := modifyStats_spec a c
  have hmod_hp : (a.modifyStats c).hp ≤ a.maxHp := by
    rw [mhp]
    cases c.hp with
    | none => exact hm
    | some d => exact max_le hmax0 (min_le_left _ _)
  have hmod_hp0 : 0 ≤ (a.modifyStats c).hp := by
    rw [mhp]
    cases c.hp with
    | none => exact h0
    | some d => exact le_max_left _ _
  have hmod_atk : 1 ≤ (a.modifyStats c).attack := by
    rw [matk]
    cases c.attack with
    | none => exact hatk
    | some d => exact le_max_left _ _
  have hmod_mind : 1 ≤ (a.modifyStats c).mind := by
    rw [mmind]
    cases c.mind with
    | none => exact hmind
    | some d => exact le_max_left _ _
  refine ⟨?_, ?_, ⟨hmod_hp0, mmax ▸ hmod_hp, hmod_atk, hmod_mind⟩,
    ⟨h0, hm, hatk, hmind⟩, ⟨h0, hm, hatk, hmind⟩, ?_, ?_, ?_,
    hmod_hp, hmod_atk, hmod_mind⟩
  · -- takeDamage with a nonnegative amount
    obtain ⟨hfst, hhp, hhp0, _, hmaxeq, hatkeq, hmindeq⟩ :=
      takeDamage_fields a amount
    have hdmg : 0 ≤ (a.takeDamage amount).1 := by
      rw [hfst]
      cases hd : a.isDefending
      · simpa using hamt
      · simp only [if_pos]
        have : (0 : ℤ) ≤ ⌊amount * (1/2 : ℚ)⌋ :=
          Int.floor_nonneg.mpr (by positivity)
        exact_mod_cast this
    refine ⟨hhp0, ?_, ?_, ?_⟩
    · rw [hhp, hmaxeq]
      exact max_le hmax0 (le_trans (by linarith) hm)
    · rw [hatkeq]; exact hatk
    · rw [hmindeq]; exact hmind
  · -- heal with a nonnegative amount
    obtain ⟨heq, _, hmaxeq, hatkeq, hmindeq⟩ := heal_fields a amount
    refine ⟨?_, ?_, ?_, ?_⟩
    · rw [heq]
      exact le_min hmax0 (by linarith)
    · rw [heq, hmaxeq]
      exact min_le_left _ _
    · rw [hatkeq]; exact hatk
    · rw [hmindeq]; exact hmind
  · refine ⟨?_, ?_, ?_, ?_⟩ <;> simp [Agent.addTrauma] <;> split <;>
      first | exact h0 | exact hm | exact hatk | exact hmind
  · intro hb
    obtain ⟨_, _, m3, _⟩ := modifyStats_spec a
      { hp := none, attack := none, mind := some (-100) }
    rw [m3]
    exact max_eq_left (by linarith)
  · intro hb
    obtain ⟨m1, _, _, _⟩ := modifyStats_spec a
      { hp := some (-1000), attack := none, mind := none }
    rw [m1]
    have : min a.maxHp (a.hp + -1000) ≤ 0 :=
      le_trans (min_le_right _ _) (by linarith)
    exact max_eq_left this

/-- Fresh agent used to instantiate universally quantified theorems. -/
def lyra : Agent := Agent.create "Lyra" 0 "default-agent"

/-- Witness for the amended claim C3 at a concrete invariant-satisfying
agent and a concrete nonnegative amount. -/
theorem mutators_preserve_invariant_witness :
    AgentInvariant lyra ∧ (0 : ℚ) ≤ 5 ∧
    AgentInvariant (lyra.takeDamage 5).2 :=
  have hinv : AgentInvariant lyra := by
    norm_num [AgentInvariant, lyra, Agent.create]
  have hamt : (0 : ℚ) ≤ 5 := by norm_num
  ⟨hinv, hamt,
    (mutators_preserve_invariant lyra 5
      { hp := none, attack := none, mind := none } "fear" hinv hamt).1⟩

/-- Claim C8: `addTrauma` is idempotent and keeps the trauma list
duplicate-free: adding `x` twice leaves exactly one occurrence of `x`. -/
theorem addTrauma_correct (a : Agent) (x : String) (h : a.trauma.Nodup) :
    (a.addTrauma x).addTrauma x = a.addTrauma x ∧
    (a.addTrauma x).trauma.Nodup ∧
    (a.addTrauma x).trauma.count x = 1 ∧
    ((a.addTrauma x).addTrauma x).trauma.count x = 1 := by
  have hidem : (a.addTrauma x).addTrauma x = a.addTrauma x := by
    by_cases hc : x ∈ a.trauma
    · simp [Agent.addTrauma, hc]
    · simp [Agent.addTrauma, hc]
  have hnodup : (a.addTrauma x).trauma.Nodup := by
    by_cases hc : x ∈ a.trauma
    · simpa [Agent.addTrauma, hc] using h
    · simp only [Agent.addTrauma, contains_iff]
      rw [if_neg hc]
      exact List.nodup_append.mpr
        ⟨h, List.nodup_singleton x, by simpa using hc⟩
  have hcount : (a.addTrauma x).trauma.count x = 1 := by
    by_cases hc : x ∈ a.trauma
    · simp only [Agent.addTrauma, contains_iff, if_pos hc]
      exact List.count_eq_one_of_mem h hc
    · simp only [Agent.addTrauma, contains_iff]
      rw [if_neg hc]
      simp [List.count_append, List.count_eq_zero_of_not_mem hc]
  exact ⟨hidem, hnodup, hcount, by rw [hidem]; exact hcount⟩

/-- Witness for claim C8 at a concrete agent with a duplicate-free trauma
list. -/
theorem addTrauma_correct_witness :
    lyra.trauma.Nodup ∧ (lyra.addTrauma "fear").addTrauma "fear"
      = lyra.addTrauma "fear" :=
  have h : lyra.trauma.Nodup := by simp [lyra, Agent.create]
  ⟨h, (addTrauma_correct lyra "fear" h).1⟩

/-- Bounds for a floored scaled random draw: for `r` in [0, 1) and a
positive integer scale `n`, `jfloor (r * n)` lies in [0, n - 1]. -/
theorem jfloor_scaled_bounds (r : ℚ) (n : ℕ) (hn : 0 < n)
    (h0 : 0 ≤ r) (h1 : r < 1) :
    0 ≤ jfloor (r * (n : ℚ)) ∧ jfloor (r * (n : ℚ)) ≤ (n : ℚ) - 1 := by
  rw [jfloor_eq]
  constructor
  · exact_mod_cast Int.floor_nonneg.mpr (by positivity)
  · have hlt : ⌊r * (n : ℚ)⌋ < (n : ℤ) := by
      apply Int.floor_lt.mpr
      push_cast
      nlinarith [show (0 : ℚ) < (n : ℚ) by exact_mod_cast hn]
    have hle : ⌊r * (n : ℚ)⌋ ≤ (n : ℤ) - 1 := by omega
    exact_mod_cast hle

/-- Claim C9: `createRandom` yields maxHp in [80, 120], attack and mind in
[3, 7], and hp equal to maxHp, for any random draws in [0, 1). -/
theorem createRandom_bounds (name : String) (color : Nat) (r1 r2 r3 : ℚ)
    (ha : 0 ≤ r1) (hb : r1 < 1) (hc : 0 ≤ r2) (hd : r2 < 1)
    (he : 0 ≤ r3) (hf : r3 < 1) :
    80 ≤ (Agent.createRandom name color r1 r2 r3).maxHp ∧
    (Agent.createRandom name color r1 r2 r3).maxHp ≤ 120 ∧
    (Agent.createRandom name color r1 r2 r3).hp
      = (Agent.createRandom name color r1 r2 r3).maxHp ∧
    3 ≤ (Agent.createRandom name color r1 r2 r3).attack ∧
    (Agent.createRandom name color r1 r2 r3).attack ≤ 7 ∧
    3 ≤ (Agent.createRandom name color r1 r2 r3).mind ∧
    (Agent.createRandom name color r1 r2 r3).mind ≤ 7 := by
  obtain ⟨q1, q2⟩ := jfloor_scaled_bounds r1 40 (by norm_num) ha hb
  obtain ⟨q3, q4⟩ := jfloor_scaled_bounds r2 5 (by norm_num) hc hd
  obtain ⟨q5, q6⟩ := jfloor_scaled_bounds r3 5 (by norm_num) he hf
  norm_num [Agent.createRandom, Agent.create] at q1 q2 q3 q4 q5 q6 ⊢
  refine ⟨by linarith, by linarith, by linarith, by linarith, by linarith,
    by linarith⟩

/-- Witness for claim C9 at the concrete draws 1/2, 1/2, 1/2. -/
theorem createRandom_bounds_witness :
    (0 : ℚ) ≤ 1/2 ∧ (1/2 : ℚ) < 1 ∧
    80 ≤ (Agent.createRandom "Nyx" 0 (1/2) (1/2) (1/2)).maxHp :=
  have h0 : (0 : ℚ) ≤ 1/2 := by norm_num
  have h1 : (1/2 : ℚ) < 1 := by norm_num
  ⟨h0, h1,
    (createRandom_bounds "Nyx" 0 (1/2) (1/2) (1/2) h0 h1 h0 h1 h0 h1).1⟩

/-- Turn log entry, from `CombatSystem.ts` (`CombatTurnResult`). -/
structure CombatTurnResult where
  actor : String
  action : String
  target : String
  damage : ℚ
  narrative : String
  actorType : String
deriving Repr, DecidableEq

/-- Final result, from `CombatSystem.ts` (`CombatResult`). -/
structure CombatResult where
  victory : Bool
  turns : List CombatTurnResult
  survivingAgents : List Agent
deriving Repr, DecidableEq

/-- Mutable fields of the `CombatSystem` class. -/
structure CombatState where
  agents : List Agent
  enemies : List Enemy
  turnLog : List CombatTurnResult
deriving Repr, DecidableEq

/-- Value of `CombatAction.target`: an array index or the string "self". -/
inductive CombatTarget where
  | idx (i : Int)
  | self
deriving Repr, DecidableEq

/-- Shape of `CombatAction` from `AgentAI.ts`; the `action` field carries the
raw string the model returned. -/
structure CombatAction where
  action : String
  target : CombatTarget
  reasoning : String
deriving Repr, DecidableEq

/-- JS `action.target as number`: the value "self" is not a valid array
index and selects nothing, like any out-of-range index; modelled as -1. -/
def CombatTarget.asNumber : CombatTarget → Int
  | .idx i => i
  | .self => -1

/-- Shape returned by `EventJudge.judgeCombatAction`, passed in here as an
oracle parameter. -/
structure CombatJudgement where
  success : Bool
  damage : Option ℚ
  narrative : String
  bonus : Option String
deriving Repr, DecidableEq

namespace CombatSystem

/-- Method `hasAliveAgents()`. -/
def hasAliveAgents (s : CombatState) : Bool := s.agents.any Agent.isAlive

/-- Method `hasAliveEnemies()`. -/
def hasAliveEnemies (s : CombatState) : Bool := s.enemies.any Enemy.isAlive

/-- The `CombatResult` built at the end of `runCombat`. -/
def mkResult (s : CombatState) : CombatResult :=
  { victory := hasAliveAgents s
    turns := s.turnLog
    survivingAgents := s.agents.filter Agent.isAlive }

/-- The `while (hasAliveAgents && hasAliveEnemies) executeTurn()` loop of
`runCombat`, over an arbitrary turn body `step` and bounded by `fuel`
(`none` models a loop still running when the fuel is exhausted). -/
def runCombatAux (step : CombatState → CombatState) :
    Nat → CombatState → Option CombatState
  | 0, s => if hasAliveAgents s && hasAliveEnemies s then none else some s
  | fuel + 1, s =>
      if hasAliveAgents s && hasAliveEnemies s then
        runCombatAux step fuel (step s)
      else some s

/-- Method `runCombat()`: clears the turn log, runs the loop, and packages
the result. -/
def runCombat (step : CombatState → CombatState) (fuel : Nat)
    (s : CombatState) : Option CombatResult :=
  (runCombatAux step fuel { s with turnLog := [] }).map mkResult

/-- Method `getAliveEnemy(index)` keeping the position of the chosen enemy
in the underlying array (to model in-place mutation):
`aliveEnemies[index] || aliveEnemies[0] || null`. -/
def getAliveEnemyEntry (enemies : List Enemy) (index : Int) :
    Option (Nat × Enemy) :=
  let alive := enemies.enum.filter (fun p => p.2.isAlive)
  match (if 0 ≤ index then alive.get? index.toNat else none) with
  | some p => some p
  | none => alive.head?

/-- Method `getAliveEnemy(index)` as written (enemy only). -/
def getAliveEnemy (enemies : List Enemy) (index : Int) : Option Enemy :=
  (getAliveEnemyEntry enemies index).map Prod.snd

/-- Lookup of `this.agents.filter(a => a.isAlive())[index]` for the heal
branch (no fallback in the source). -/
def getAliveAgentEntry (agents : List Agent) (index : Int) :
    Option (Nat × Agent) :=
  let alive := agents.enum.filter (fun p => p.2.isAlive)
  if 0 ≤ index then alive.get? index.toNat else none

/-- Method `executeAgentAction(agent, action)`. The acting agent is
`s.agents[actorIdx]`; `judgement` is the LLM judge response and `roll` the
already-floored `Math.floor(Math.random() * 5)` (or `* 10`) bonus. -/
def executeAgentAction (actorIdx : Nat) (action : CombatAction)
    (judgement : CombatJudgement) (roll : ℚ) (s : CombatState) :
    CombatState :=
  match s.agents.get? actorIdx with
  | none => s
  | some agent =>
    let baseResult : CombatTurnResult :=
      { actor := agent.name, action := action.action, target := "",
        damage := 0, narrative := "", actorType := "agent" }
    if action.action = "attack" then
      match getAliveEnemyEntry s.enemies action.target.asNumber with
      | none => { s with turnLog := s.turnLog ++ [baseResult] }
      | some (i, tgt) =>
        if judgement.success then
          let baseDamage := agent.attack + roll
          let totalDamage := baseDamage + judgement.damage.getD 0
          let res := tgt.takeDamage totalDamage
          { s with
            enemies := s.enemies.set i res.2
            turnLog := s.turnLog ++ [{ baseResult with
              target := tgt.name
              damage := res.1
              narrative := judgement.narrative ++
                (match judgement.bonus with
                  | some b => " " ++ b
                  | none => "") }] }
        else
          { s with turnLog := s.turnLog ++ [{ baseResult with
              target := tgt.name, narrative := judgement.narrative }] }
    else if action.action = "defend" then
      { s with
        agents := s.agents.set actorIdx agent.defend
        turnLog := s.turnLog ++ [{ baseResult with
          target := "self"
          narrative := agent.name ++ " takes a defensive stance!" }] }
    else if action.action = "heal" then
      let targetEntry := match action.target with
        | .self => some (actorIdx, agent)
        | .idx i => getAliveAgentEntry s.agents i
      match targetEntry with
      | none => { s with turnLog := s.turnLog ++ [baseResult] }
      | some (j, tgt) =>
        let healAmount := agent.mind + roll
        let res := tgt.heal healAmount
        { s with
          agents := s.agents.set j res.2
          turnLog := s.turnLog ++ [{ baseResult with
            target := tgt.name
            damage := -res.1
            narrative := agent.name ++ " heals " ++ tgt.name ++ " for "
              ++ toString res.1 ++ " HP!" }] }
    else if action.action = "special" then
      match getAliveEnemyEntry s.enemies action.target.asNumber with
      | none => { s with turnLog := s.turnLog ++ [baseResult] }
      | some (i, tgt) =>
        if judgement.success then
          let baseDamage := agent.attack * (3/2) + roll
          let totalDamage := baseDamage + judgement.damage.getD 0
          let res := tgt.takeDamage totalDamage
          { s with
            enemies := s.enemies.set i res.2
            turnLog := s.turnLog ++ [{ baseResult with
              target := tgt.name
              damage := res.1
              narrative := agent.name ++ " uses " ++ agent.signatureSkill
                ++ "! " ++ judgement.narrative }] }
        else
          { s with turnLog := s.turnLog ++ [{ baseResult with
              target := tgt.name
              narrative := agent.name ++ " " ++ agent.signatureSkill
                ++ " fails! " ++ judgement.narrative }] }
    else
      { s with turnLog := s.turnLog ++ [baseResult] }

end CombatSystem

/-- Any state the combat loop stops on has a side with no living members. -/
theorem runCombatAux_exit (step : CombatState → CombatState) :
    ∀ (fuel : Nat) (s s2 : CombatState),
      CombatSystem.runCombatAux step fuel s = some s2 →
      (CombatSystem.hasAliveAgents s2 && CombatSystem.hasAliveEnemies s2)
        = false := by
  intro fuel
  induction fuel with
  | zero =>
    intro s s2 h
    simp only [CombatSystem.runCombatAux] at h
    split at h
    · exact absurd h (by simp)
    · next hc =>
      cases h
      simpa using hc
  | succ n ih =>
    intro s s2 h
    simp only [CombatSystem.runCombatAux] at h
    split at h
    · exact ih _ _ h
    · next hc =>
      cases h
      simpa using hc

/-- Claim C1: `runCombat` loops only while both sides have a living member;
whenever it returns, one side has zero living members and the result has
`victory = true` iff some agent is still alive, with `survivingAgents` the
agents with hp > 0. -/
theorem runCombat_correct (step : CombatState → CombatState) (fuel : Nat)
    (s : CombatState) :
    ((CombatSystem.hasAliveAgents s = false ∨
        CombatSystem.hasAliveEnemies s = false) →
      CombatSystem.runCombat step fuel s
        = some (CombatSystem.mkResult { s with turnLog := [] })) ∧
    (∀ r, CombatSystem.runCombat step fuel s = some r →
      ∃ s2, CombatSystem.runCombatAux step fuel { s with turnLog := [] }
          = some s2 ∧
        (CombatSystem.hasAliveAgents s2 = false ∨
          CombatSystem.hasAliveEnemies s2 = false) ∧
        r = CombatSystem.mkResult s2 ∧
        r.victory = CombatSystem.hasAliveAgents s2 ∧
        (r.victory = true ↔ ∃ a ∈ s2.agents, 0 < a.hp) ∧
        r.survivingAgents = s2.agents.filter Agent.isAlive) := by
  constructor
  · intro h
    have e1 : CombatSystem.hasAliveAgents { s with turnLog := [] }
        = CombatSystem.hasAliveAgents s := rfl
    have e2 : CombatSystem.hasAliveEnemies { s with turnLog := [] }
        = CombatSystem.hasAliveEnemies s := rfl
    have hcond : (CombatSystem.hasAliveAgents { s with turnLog := [] } &&
        CombatSystem.hasAliveEnemies { s with turnLog := [] }) = false := by
      rw [e1, e2]
      rcases h with h | h <;> simp [h]
    cases fuel with
    | zero => simp [CombatSystem.runCombat, CombatSystem.runCombatAux, hcond]
    | succ n => simp [CombatSystem.runCombat, CombatSystem.runCombatAux, hcond]
  · intro r hr
    simp only [CombatSystem.runCombat, Option.map_eq_some'] at hr
    obtain ⟨s2, hs2, hr2⟩ := hr
    have hexit := runCombatAux_exit step fuel _ _ hs2
    have hor : CombatSystem.hasAliveAgents s2 = false ∨
        CombatSystem.hasAliveEnemies s2 = false := by
      cases hA : CombatSystem.hasAliveAgents s2
      · exact Or.inl rfl
      · right
        simpa [hA] using hexit
    subst hr2
    refine ⟨s2, hs2, hor, rfl, rfl, ?_, rfl⟩
    simp [CombatSystem.mkResult, CombatSystem.hasAliveAgents,
      List.any_eq_true, Agent.isAlive]

/-- One-agent, zero-enemy roster used to exercise the combat loop. -/
def soloState : CombatState :=
  { agents := [lyra], enemies := [], turnLog := [] }

/-- Witness for claim C1: with no enemies the loop exits at once and the
lone agent survives. -/
theorem runCombat_correct_witness :
    CombatSystem.hasAliveEnemies soloState = false ∧
    CombatSystem.runCombat (fun s => s) 0 soloState
      = some (CombatSystem.mkResult { soloState with turnLog := [] }) :=
  have h : CombatSystem.hasAliveEnemies soloState = false := rfl
  ⟨h, (runCombat_correct (fun s => s) 0 soloState).1 (Or.inr h)⟩

/-- The second components of the alive-filtered enumerated enemy list are
exactly the alive-filtered enemies. -/
theorem alive_enum_snd (enemies : List Enemy) :
    (enemies.enum.filter (fun p => p.2.isAlive)).map Prod.snd
      = enemies.filter Enemy.isAlive := by
  have h : (fun p : Nat × Enemy => p.2.isAlive)
      = (Enemy.isAlive ∘ Prod.snd) := rfl
  rw [h, ← List.filter_map, List.enum_map_snd]

/-- Unfolding of `getAliveEnemyEntry`. -/
theorem getAliveEnemyEntry_eq (enemies : List Enemy) (index : Int) :
    CombatSystem.getAliveEnemyEntry enemies index
      = match (if 0 ≤ index then
          (enemies.enum.filter (fun p => p.2.isAlive)).get? index.toNat
        else none) with
        | some p => some p
        | none => (enemies.enum.filter (fun p => p.2.isAlive)).head? := rfl

/-- Claim C10: an `attack` or `special` action whose numeric target index
does not name a living enemy in the alive-filtered list is redirected to
the first living enemy; the lookup yields `none`, and the action leaves
every enemy and agent untouched, exactly when no enemy is alive. -/
theorem attack_target_redirect (s : CombatState) (index : Int)
    (actorIdx : Nat) (agent : Agent) (action : CombatAction)
    (jd : CombatJudgement) (roll : ℚ)
    (hag : s.agents.get? actorIdx = some agent)
    (hact : action.action = "attack" ∨ action.action = "special")
    (hidx : action.target.asNumber = index) :
    (s.enemies.filter Enemy.isAlive = [] →
      CombatSystem.getAliveEnemy s.enemies index = none ∧
      (CombatSystem.executeAgentAction actorIdx action jd roll s).enemies
        = s.enemies ∧
      (CombatSystem.executeAgentAction actorIdx action jd roll s).agents
        = s.agents ∧
      (CombatSystem.executeAgentAction actorIdx action jd roll s).turnLog
        = s.turnLog ++ [{ actor := agent.name, action := action.action, target := "", damage := 0, narrative := "", actorType := "agent" }]) ∧
    (s.enemies.filter Enemy.isAlive ≠ [] →
      ∃ t, CombatSystem.getAliveEnemy s.enemies index = some t ∧
        t ∈ s.enemies.filter Enemy.isAlive ∧
        t.isAlive = true ∧
        (¬ (0 ≤ index ∧
            index.toNat < (s.enemies.filter Enemy.isAlive).length) →
          (s.enemies.filter Enemy.isAlive).head? = some t) ∧
        ((0 ≤ index ∧
            index.toNat < (s.enemies.filter Enemy.isAlive).length) →
          (s.enemies.filter Enemy.isAlive).get? index.toNat = some t) ∧
        ∃ entry,
          (CombatSystem.executeAgentAction actorIdx action jd roll s).turnLog
              = s.turnLog ++ [entry] ∧
            entry.target = t.name) := by
  have hsnd := alive_enum_snd s.enemies
  constructor
  · intro halive
    have hent : s.enemies.enum.filter (fun p => p.2.isAlive) = [] := by
      apply List.map_eq_nil.mp
      rw [hsnd]
      exact halive
    have hnone : CombatSystem.getAliveEnemyEntry s.enemies index = none := by
      rw [getAliveEnemyEntry_eq, hent]
      simp
    refine ⟨by simp [CombatSystem.getAliveEnemy, hnone], ?_⟩
    rcases hact with hA | hA
    · simp only [CombatSystem.executeAgentAction, hag, hA, hidx, hnone]
      exact ⟨rfl, rfl, rfl⟩
    · simp only [CombatSystem.executeAgentAction, hag, hA, hidx, hnone]
      exact ⟨rfl, rfl, rfl⟩
  · intro halive
    have hentne : s.enemies.enum.filter (fun p => p.2.isAlive) ≠ [] := by
      intro hh
      apply halive
      rw [← hsnd, hh]
      rfl
    have hlog : ∀ p : Nat × Enemy,
        CombatSystem.getAliveEnemyEntry s.enemies index = some p →
        ∃ entry,
          (CombatSystem.executeAgentAction actorIdx action jd roll s).turnLog
              = s.turnLog ++ [entry] ∧
            entry.target = p.2.name := by
      rintro ⟨i, tgt⟩ hentry
      rcases hact with hA | hA <;> cases hjs : jd.success <;>
        · simp only [CombatSystem.executeAgentAction, hag, hA, hidx,
            hentry, hjs]
          exact ⟨_, rfl, rfl⟩
    cases hvalid : (if 0 ≤ index then
        (s.enemies.enum.filter (fun p => p.2.isAlive)).get? index.toNat
      else none) with
    | some p =>
      have hentry : CombatSystem.getAliveEnemyEntry s.enemies index
          = some p := by
        rw [getAliveEnemyEntry_eq, hvalid]
      have hge : 0 ≤ index := by
        by_contra hlt
        rw [if_neg hlt] at hvalid
        cases hvalid
      rw [if_pos hge] at hvalid
      have hltlen : index.toNat
          < (s.enemies.enum.filter (fun p => p.2.isAlive)).length := by
        by_contra hge2
        rw [List.get?_eq_none.mpr (le_of_not_lt hge2)] at hvalid
        cases hvalid
      have hmem : p ∈ s.enemies.enum.filter (fun p => p.2.isAlive) :=
        List.get?_mem hvalid
      refine ⟨p.2, by simp [CombatSystem.getAliveEnemy, hentry], ?_, ?_,
        ?_, ?_, hlog p hentry⟩
      · rw [← hsnd]
        exact List.mem_map_of_mem Prod.snd hmem
      · exact (List.mem_filter.mp hmem).2
      · intro hnv
        exfalso
        apply hnv
        refine ⟨hge, ?_⟩
        rw [← hsnd, List.length_map]
        exact hltlen
      · intro _
        rw [← hsnd, List.get?_map, hvalid]
        rfl
    | none =>
      obtain ⟨p, hp⟩ :
          ∃ p, (s.enemies.enum.filter (fun p => p.2.isAlive)).head?
            = some p := by
        cases hE : s.enemies.enum.filter (fun p => p.2.isAlive) with
        | nil => exact absurd hE hentne
        | cons q qs => exact ⟨q, rfl⟩
      have hentry : CombatSystem.getAliveEnemyEntry s.enemies index
          = some p := by
        rw [getAliveEnemyEntry_eq, hvalid]
        exact hp
      have hmem : p ∈ s.enemies.enum.filter (fun p => p.2.isAlive) :=
        List.mem_of_mem_head? (by simp [hp])
      refine ⟨p.2, by simp [CombatSystem.getAliveEnemy, hentry], ?_, ?_,
        ?_, ?_, hlog p hentry⟩
      · rw [← hsnd]
        exact List.mem_map_of_mem Prod.snd hmem
      · exact (List.mem_filter.mp hmem).2
      · intro _
        rw [← hsnd, List.head?_map, hp]
        rfl
      · intro hv
        exfalso
        obtain ⟨hge, hlt⟩ := hv
        rw [if_pos hge] at hvalid
        have hlen := List.get?_eq_none.mp hvalid
        rw [← hsnd, List.length_map] at hlt
        omega

/-- A live bandit from the `ENEMY_TEMPLATES` table. -/
def banditEnemy : Enemy :=
  { name := "Bandit", type := "human", hp := 40, maxHp := 40, attack := 8,
    color := 0, abilities := [], isDefending := false }

/-- One agent facing one bandit. -/
def duelState : CombatState :=
  { agents := [lyra], enemies := [banditEnemy], turnLog := [] }

/-- Witness for claim C10: the out-of-range index 5 is redirected to the
first (only) living enemy. -/
theorem attack_target_redirect_witness :
    duelState.enemies.filter Enemy.isAlive ≠ [] ∧
    (∃ t, CombatSystem.getAliveEnemy duelState.enemies 5 = some t ∧
      t ∈ duelState.enemies.filter Enemy.isAlive ∧
      t.isAlive = true ∧
      (¬ (0 ≤ (5 : Int) ∧
          (5 : Int).toNat
            < (duelState.enemies.filter Enemy.isAlive).length) →
        (duelState.enemies.filter Enemy.isAlive).head? = some t) ∧
      ((0 ≤ (5 : Int) ∧
          (5 : Int).toNat
            < (duelState.enemies.filter Enemy.isAlive).length) →
        (duelState.enemies.filter Enemy.isAlive).get? (5 : Int).toNat
          = some t) ∧
      ∃ entry,
        (CombatSystem.executeAgentAction 0
            { action := "attack", target := CombatTarget.idx 5, reasoning := "press the advantage" }
            { success := true, damage := none, narrative := "a clean hit", bonus := none }
            2 duelState).turnLog
            = duelState.turnLog ++ [entry] ∧
          entry.target = t.name) :=
  have hne : duelState.enemies.filter Enemy.isAlive ≠ [] := by
    norm_num [duelState, banditEnemy, Enemy.isAlive, List.filter]
  have hag : duelState.agents.get? 0 = some lyra := rfl
  ⟨hne,
    (attack_target_redirect duelState 5 0 lyra
      { action := "attack", target := CombatTarget.idx 5, reasoning := "press the advantage" }
      { success := true, damage := none, narrative := "a clean hit", bonus := none }
      2 hag (Or.inl rfl) rfl).2 hne⟩

/-- Outcome of the `generateJSON` call inside `decideCombatAction`: either a
parsed response or any thrown failure (network, HTTP, parse). -/
inductive GatewayOutcome where
  | ok (response : CombatAction)
  | fail
deriving Repr, DecidableEq

namespace AgentAI

/-- The four verbs accepted by the validation in `decideCombatAction`. -/
def validCombatVerbs : List String := ["attack", "defend", "heal", "special"]

/-- The hardcoded fallback combat action. -/
def fallbackCombatAction : CombatAction :=
  { action := "attack", target := CombatTarget.idx 0,
    reasoning := "Defaulting to a basic attack." }

/-- Method `decideCombatAction`: the try block validates the action verb
and throws on an invalid one; the catch block returns the fallback. -/
def decideCombatAction (gw : GatewayOutcome) : CombatAction :=
  let attempt : Except Unit CombatAction :=
    match gw with
    | .fail => .error ()
    | .ok response =>
        if validCombatVerbs.contains response.action then .ok response
        else .error ()
  match attempt with
  | .ok r => r
  | .error _ => fallbackCombatAction

end AgentAI

/-- Claim C5: `decideCombatAction` always resolves; on a failed gateway
call, or on a response whose action verb is not one of attack, defend,
heal, special, it returns exactly the hardcoded fallback; on a response
with a valid verb it returns the response unchanged. -/
theorem decideCombatAction_fallback (gw : GatewayOutcome) :
    (gw = .fail →
      AgentAI.decideCombatAction gw = AgentAI.fallbackCombatAction) ∧
    (∀ r, gw = .ok r →
      (AgentAI.validCombatVerbs.contains r.action = false →
        AgentAI.decideCombatAction gw = AgentAI.fallbackCombatAction) ∧
      (AgentAI.validCombatVerbs.contains r.action = true →
        AgentAI.decideCombatAction gw = r)) := by
  constructor
  · rintro rfl
    rfl
  · rintro r rfl
    constructor
    · intro hc
      have hmem : r.action ∉ AgentAI.validCombatVerbs := by simpa using hc
      simp [AgentAI.decideCombatAction, hmem]
    · intro hc
      have hmem : r.action ∈ AgentAI.validCombatVerbs := by simpa using hc
      simp [AgentAI.decideCombatAction, hmem]

/-- Witness for claim C5: a failed gateway, an invalid verb, and a valid
verb, each at a concrete response. -/
theorem decideCombatAction_fallback_witness :
    AgentAI.decideCombatAction .fail = AgentAI.fallbackCombatAction ∧
    AgentAI.validCombatVerbs.contains "fireball" = false ∧
    AgentAI.decideCombatAction
        (.ok { action := "fireball", target := CombatTarget.idx 0, reasoning := "burn them" })
      = AgentAI.fallbackCombatAction ∧
    AgentAI.decideCombatAction
        (.ok { action := "defend", target := CombatTarget.self, reasoning := "hold the line" })
      = { action := "defend", target := CombatTarget.self, reasoning := "hold the line" } :=
  have hbad : AgentAI.validCombatVerbs.contains "fireball" = false := by
    decide
  have hgood : AgentAI.validCombatVerbs.contains "defend" = true := by
    decide
  ⟨(decideCombatAction_fallback .fail).1 rfl, hbad,
    ((decideCombatAction_fallback _).2 _ rfl).1 hbad,
    ((decideCombatAction_fallback _).2 _ rfl).2 hgood⟩

/-- A failure of one backend attempt (fetch error, abort, or non-2xx
status). -/
inductive RequestError where
  | network (message : String)
  | httpStatus (code : Nat) (body : String)
deriving Repr, DecidableEq

namespace OllamaClient

/-- Constructor default `options.maxRetries || 3`. -/
def defaultMaxRetries : Nat := 3

/-- Backoff before retrying after a failed attempt:
`1000 * Math.pow(2, attempt)` milliseconds. -/
def backoffDelay (attempt : Nat) : Nat := 1000 * 2 ^ attempt

/-- Whether an attempt outcome was a failure. -/
def isFailure (r : Except RequestError String) : Bool :=
  match r with
  | .error _ => true
  | .ok _ => false

/-- Observable trace of the retry loop of `generateOllama` /
`generateGroq`: the final outcome, the number of backend calls, and the
list of inter-attempt waits in milliseconds. -/
structure RetryTrace where
  result : Except (Option RequestError) String
  calls : Nat
  delays : List Nat
deriving Repr

/-- The `for (attempt = 0; attempt < maxRetries; attempt++)` retry loop.
`backend attempt` is the outcome of attempt number `attempt`; the fuel is
the number of attempts left; the delay is scheduled only when
`attempt < maxRetries - 1`, i.e. when further fuel remains; on exhaustion
the loop throws an error carrying the last recorded failure. -/
def generateAux (backend : Nat → Except RequestError String) :
    Nat → Nat → Option RequestError → RetryTrace
  | _, 0, lastError => ⟨.error lastError, 0, []⟩
  | attempt, fuel + 1, _ =>
    match backend attempt with
    | .ok s => ⟨.ok s, 1, []⟩
    | .error e =>
      let rest := generateAux backend (attempt + 1) fuel (some e)
      ⟨rest.result, rest.calls + 1,
        (if 0 < fuel then [backoffDelay attempt] else []) ++ rest.delays⟩

/-- The whole retry loop starting from attempt 0 with no recorded error. -/
def generate (backend : Nat → Except RequestError String)
    (maxRetries : Nat) : RetryTrace :=
  generateAux backend 0 maxRetries none

end OllamaClient

/-- Prepending the first backoff to the later ones re-indexes the range. -/
theorem backoff_delays_cons (a k : Nat) :
    [OllamaClient.backoffDelay a]
        ++ (List.range k).map (fun j => OllamaClient.backoffDelay (a + 1 + j))
      = (List.range (k + 1)).map (fun j => OllamaClient.backoffDelay (a + j)) := by
  have hfun : (fun j => OllamaClient.backoffDelay (a + 1 + j))
      = ((fun j => OllamaClient.backoffDelay (a + j)) ∘ Nat.succ) := by
    funext j
    simp only [Function.comp_apply]
    rw [show a + 1 + j = a + (j + 1) from by omega]
  rw [List.range_succ_eq_map, List.map_cons, List.map_map, hfun]
  simp

/-- The loop makes at most `fuel` backend calls. -/
theorem generateAux_calls_le (backend : Nat → Except RequestError String) :
    ∀ (fuel attempt : Nat) (last : Option RequestError),
      (OllamaClient.generateAux backend attempt fuel last).calls ≤ fuel := by
  intro fuel
  induction fuel with
  | zero =>
    intro a last
    simp [OllamaClient.generateAux]
  | succ n ih =>
    intro a last
    cases hb : backend a with
    | ok s =>
      simp [OllamaClient.generateAux, hb]
    | error e =>
      have h := ih (a + 1) (some e)
      simp [OllamaClient.generateAux, hb]
      omega

/-- If the first `k` attempts starting at `attempt` fail and attempt
`attempt + k` succeeds within the remaining fuel, the loop stops right
there: `k + 1` calls, the successful response, and one backoff after each
failed attempt. -/
theorem generateAux_success (backend : Nat → Except RequestError String) :
    ∀ (k fuel attempt : Nat) (last : Option RequestError) (s : String),
      k < fuel → backend (attempt + k) = .ok s →
      (∀ j, j < k → OllamaClient.isFailure (backend (attempt + j)) = true) →
      OllamaClient.generateAux backend attempt fuel last
        = ⟨.ok s, k + 1,
          (List.range k).map (fun j => OllamaClient.backoffDelay (attempt + j))⟩ := by
  intro k
  induction k with
  | zero =>
    intro fuel a last s hk hok _
    rw [Nat.add_zero] at hok
    cases fuel with
    | zero => omega
    | succ n =>
      simp [OllamaClient.generateAux, hok]
  | succ k ih =>
    intro fuel a last s hk hok hfail
    cases fuel with
    | zero => omega
    | succ n =>
      have h0 : OllamaClient.isFailure (backend (a + 0)) = true :=
        hfail 0 (by omega)
      rw [Nat.add_zero] at h0
      obtain ⟨e, he⟩ : ∃ e, backend a = .error e := by
        cases hb : backend a with
        | ok s2 =>
          rw [hb] at h0
          cases h0
        | error e => exact ⟨e, rfl⟩
      have hrec := ih n (a + 1) (some e) s (by omega)
        (by rw [show a + 1 + k = a + (k + 1) from by omega]; exact hok)
        (fun j hj => by
          have hf := hfail (j + 1) (by omega)
          rwa [show a + (j + 1) = a + 1 + j from by omega] at hf)
      have hn : 0 < n := by omega
      simp only [OllamaClient.generateAux, he, hrec, if_pos hn]
      rw [backoff_delays_cons]

/-- If every attempt within the fuel fails, the loop makes exactly `fuel`
calls, backs off after each attempt but the last, and throws carrying the
error of the last attempt. -/
theorem generateAux_allfail (backend : Nat → Except RequestError String) :
    ∀ (fuel attempt : Nat) (last : Option RequestError),
      0 < fuel →
      (∀ j, j < fuel → OllamaClient.isFailure (backend (attempt + j)) = true) →
      ∃ e, backend (attempt + (fuel - 1)) = .error e ∧
        OllamaClient.generateAux backend attempt fuel last
          = ⟨.error (some e), fuel,
            (List.range (fuel - 1)).map
              (fun j => OllamaClient.backoffDelay (attempt + j))⟩ := by
  intro fuel
  induction fuel with
  | zero =>
    intro a last h
    exact absurd h (by omega)
  | succ n ih =>
    intro a last _ hfail
    have h0 : OllamaClient.isFailure (backend (a + 0)) = true :=
      hfail 0 (by omega)
    rw [Nat.add_zero] at h0
    obtain ⟨e0, he0⟩ : ∃ e, backend a = .error e := by
      cases hb : backend a with
      | ok s2 =>
        rw [hb] at h0
        cases h0
      | error e => exact ⟨e, rfl⟩
    cases n with
    | zero =>
      refine ⟨e0, by simpa using he0, ?_⟩
      simp [OllamaClient.generateAux, he0]
    | succ m =>
      obtain ⟨e, he, hrec⟩ := ih (a + 1) (some e0) (by omega)
        (fun j hj => by
          have hf := hfail (j + 1) (by omega)
          rwa [show a + (j + 1) = a + 1 + j from by omega] at hf)
      refine ⟨e, ?_, ?_⟩
      · rw [show a + (m + 1 + 1 - 1) = a + 1 + (m + 1 - 1) from by omega]
        exact he
      · have hm : 0 < m + 1 := by omega
        have hstep : OllamaClient.generateAux backend a (m + 1 + 1) last
            = (match backend a with
              | Except.ok s =>
                (⟨Except.ok s, 1, []⟩ : OllamaClient.RetryTrace)
              | Except.error e =>
                (⟨(OllamaClient.generateAux backend (a + 1) (m + 1) (some e)).result, (OllamaClient.generateAux backend (a + 1) (m + 1) (some e)).calls + 1, (if 0 < m + 1 then [OllamaClient.backoffDelay a] else []) ++ (OllamaClient.generateAux backend (a + 1) (m + 1) (some e)).delays⟩ : OllamaClient.RetryTrace)) := rfl
        rw [hstep, he0]
        simp only [hrec, if_pos hm]
        rw [show m + 1 + 1 - 1 = (m + 1 - 1) + 1 from by omega,
          ← backoff_delays_cons]

/-- Claim C6: the gateway retry loop makes at most `maxRetries` attempts,
returns the first successful response immediately (a backend failing `k`
times then succeeding is called exactly `k + 1` times), waits
`1000 * 2^attempt` ms after each failed attempt that is not the last, and
after all attempts fail it throws carrying the error of the last attempt. -/
theorem generate_retry (backend : Nat → Except RequestError String)
    (m : Nat) :
    (OllamaClient.generate backend m).calls ≤ m ∧
    (∀ k s, k < m → backend k = .ok s →
      (∀ j, j < k → OllamaClient.isFailure (backend j) = true) →
      (OllamaClient.generate backend m).result = .ok s ∧
      (OllamaClient.generate backend m).calls = k + 1 ∧
      (OllamaClient.generate backend m).delays
        = (List.range k).map OllamaClient.backoffDelay) ∧
    ((∀ j, j < m → OllamaClient.isFailure (backend j) = true) → 0 < m →
      ∃ e, backend (m - 1) = .error e ∧
        (OllamaClient.generate backend m).result = .error (some e) ∧
        (OllamaClient.generate backend m).calls = m ∧
        (OllamaClient.generate backend m).delays
          = (List.range (m - 1)).map OllamaClient.backoffDelay) := by
  refine ⟨generateAux_calls_le backend m 0 none, ?_, ?_⟩
  · intro k s hk hok hfail
    have h := generateAux_success backend k m 0 none s hk
      (by simpa using hok) (fun j hj => by simpa using hfail j hj)
    rw [OllamaClient.generate, h]
    refine ⟨rfl, rfl, ?_⟩
    simp
  · intro hfail hm
    obtain ⟨e, he, h⟩ := generateAux_allfail backend m 0 none hm
      (fun j hj => by simpa using hfail j hj)
    rw [Nat.zero_add] at he
    refine ⟨e, he, ?_⟩
    rw [OllamaClient.generate, h]
    refine ⟨rfl, rfl, ?_⟩
    simp

/-- A backend that fails twice, then succeeds. -/
def flakyBackend : Nat → Except RequestError String :=
  fun i =>
    if i < 2 then .error (.network "connection refused")
    else .ok "All is well."

/-- Witness for claim C6: the flaky backend under the default 3 retries is
called exactly 3 times and its successful response is returned. -/
theorem generate_retry_witness :
    (2 : Nat) < 3 ∧ flakyBackend 2 = .ok "All is well." ∧
    (∀ j, j < 2 → OllamaClient.isFailure (flakyBackend j) = true) ∧
    (OllamaClient.generate flakyBackend 3).result = .ok "All is well." ∧
    (OllamaClient.generate flakyBackend 3).calls = 3 :=
  have h1 : (2 : Nat) < 3 := by decide
  have h2 : flakyBackend 2 = .ok "All is well." := rfl
  have h3 : ∀ j, j < 2 → OllamaClient.isFailure (flakyBackend j) = true := by
    decide
  have hmain := (generate_retry flakyBackend 3).2.1 2 "All is well." h1 h2 h3
  ⟨h1, h2, h3, hmain.1, by rw [hmain.2.1]⟩

/-- Event template record, from `EventTemplates.ts`. -/
structure EventTemplate where
  id : String
  type : String
  template : String
  difficulty : String
deriving Repr, DecidableEq

/-- The full `EVENT_TEMPLATES` table (12 normal, 10 combat). -/
def EVENT_TEMPLATES : List EventTemplate := [
  ⟨"bridge", "normal", "A bridge ahead is damaged and unstable. There may be danger approaching from behind.", "medium"⟩,
  ⟨"stranger", "normal", "A mysterious stranger offers valuable information in exchange for something precious.", "easy"⟩,
  ⟨"treasure", "normal", "You discover a chest that appears trapped. It may contain valuable loot or danger.", "medium"⟩,
  ⟨"fork", "normal", "The path splits into three directions: one safe but long, one risky but quick, one mysterious.", "easy"⟩,
  ⟨"injured", "normal", "You encounter an injured traveler who claims to have been attacked by bandits nearby.", "medium"⟩,
  ⟨"ruins", "normal", "Ancient ruins block your path. They may contain shortcuts or secrets, but could be unstable.", "hard"⟩,
  ⟨"merchant", "normal", "A traveling merchant offers rare items at suspicious prices. Something feels off.", "easy"⟩,
  ⟨"shrine", "normal", "A magical shrine radiates power. It may grant blessings or curses to those who approach.", "medium"⟩,
  ⟨"storm", "normal", "A sudden storm forces you to find shelter quickly. Multiple options present themselves.", "medium"⟩,
  ⟨"river", "normal", "A raging river blocks your path. You must decide how to cross with limited resources.", "hard"⟩,
  ⟨"village", "normal", "You arrive at a village with a dark secret. The villagers act strangely welcoming.", "hard"⟩,
  ⟨"beast", "normal", "A rare magical beast appears. It seems intelligent but potentially dangerous.", "medium"⟩,
  ⟨"bandits", "combat", "A group of bandits ambushes you on the road, demanding valuables.", "easy"⟩,
  ⟨"wolves", "combat", "A pack of dire wolves emerges from the forest, hungry and aggressive.", "medium"⟩,
  ⟨"undead", "combat", "Undead creatures rise from the ground, drawn by necromantic energy.", "medium"⟩,
  ⟨"cultists", "combat", "Fanatical cultists block your path, chanting about an ancient prophecy.", "hard"⟩,
  ⟨"ogre", "combat", "A massive ogre demands tribute for passing through its territory.", "hard"⟩,
  ⟨"spiders", "combat", "Giant spiders descend from the trees, their webs glistening with venom.", "medium"⟩,
  ⟨"elementals", "combat", "Elemental creatures manifest, drawn to the magic in your party.", "hard"⟩,
  ⟨"guards", "combat", "Corrupt guards attempt to arrest you on false charges.", "easy"⟩,
  ⟨"goblins", "combat", "A war band of goblins spots you from their camp and charges to attack.", "easy"⟩,
  ⟨"demon", "combat", "A minor demon materializes, seeking souls to claim for its master.", "hard"⟩]

namespace EventTemplateSelector

/-- `Set.add` on the insertion-ordered list of used template ids. -/
def setAdd (used : List String) (id : String) : List String :=
  if used.contains id then used else used ++ [id]

/-- The body of `getRandomTemplate`, with the `usedTemplates` set passed
explicitly, the random draw modelled by `rand` (the chosen index is
`rand % unused.length`, matching `Math.floor(Math.random() * len)` taking
every value below `len`), and the self-recursion after clearing the
used-set bounded by `fuel` (`none` models the non-terminating recursion
that occurs when no template matches at all). -/
def getRandomTemplateAux (rand : Nat) (type : String)
    (difficulty : Option String) :
    Nat → List String → Option (EventTemplate × List String)
  | 0, _ => none
  | fuel + 1, used =>
    let candidates0 : List EventTemplate :=
      EVENT_TEMPLATES.filter (fun t => t.type == type)
    let candidates : List EventTemplate := match difficulty with
      | some d => candidates0.filter (fun t => t.difficulty == d)
      | none => candidates0
    let unused : List EventTemplate :=
      candidates.filter (fun t => !(used.contains t.id))
    if unused.isEmpty then
      getRandomTemplateAux rand type difficulty fuel []
    else
      match unused.get? (rand % unused.length) with
      | some t => some (t, setAdd used t.id)
      | none => none

/-- Method `getRandomTemplate(type, difficulty)`: one pass, plus at most
one retry after the used-set reset. -/
def getRandomTemplate (rand : Nat) (type : String)
    (difficulty : Option String) (used : List String) :
    Option (EventTemplate × List String) :=
  getRandomTemplateAux rand type difficulty 2 used

end EventTemplateSelector

/-- The templates matching a fixed type/difficulty pair. -/
def matchingTemplates (type d : String) : List EventTemplate :=
  (EVENT_TEMPLATES.filter (fun t => t.type == type)).filter
    (fun t => t.difficulty == d)

/-- One successful pass of the selector: when some matching template is
still unused, the call returns an unused one and records its id. -/
theorem getRandomTemplateAux_pass (rand : Nat) (ty d : String)
    (used : List String) (fuel : Nat)
    (hne2 : (matchingTemplates ty d).filter
      (fun t => !(used.contains t.id)) ≠ []) :
    ∃ t,
      t ∈ (matchingTemplates ty d).filter (fun t => !(used.contains t.id)) ∧
      EventTemplateSelector.getRandomTemplateAux rand ty (some d) (fuel + 1)
          used
        = some (t, EventTemplateSelector.setAdd used t.id) := by
  have hstep : EventTemplateSelector.getRandomTemplateAux rand ty (some d)
      (fuel + 1) used
      = (if ((matchingTemplates ty d).filter
            (fun t => !(used.contains t.id))).isEmpty then
          EventTemplateSelector.getRandomTemplateAux rand ty (some d) fuel []
        else
          match ((matchingTemplates ty d).filter
              (fun t => !(used.contains t.id))).get?
              (rand % ((matchingTemplates ty d).filter
                (fun t => !(used.contains t.id))).length) with
          | some t => some (t, EventTemplateSelector.setAdd used t.id)
          | none => none) := rfl
  have hlen : 0 < ((matchingTemplates ty d).filter
      (fun t => !(used.contains t.id))).length := List.length_pos.mpr hne2
  have hlt : rand % ((matchingTemplates ty d).filter
        (fun t => !(used.contains t.id))).length
      < ((matchingTemplates ty d).filter
        (fun t => !(used.contains t.id))).length := Nat.mod_lt _ hlen
  obtain ⟨t, hget⟩ :
      ∃ t, ((matchingTemplates ty d).filter
          (fun t => !(used.contains t.id))).get?
          (rand % ((matchingTemplates ty d).filter
            (fun t => !(used.contains t.id))).length) = some t :=
    ⟨_, List.get?_eq_get hlt⟩
  have hnotempty : ¬ (((matchingTemplates ty d).filter
      (fun t => !(used.contains t.id))).isEmpty = true) := by
    cases hu : (matchingTemplates ty d).filter
        (fun t => !(used.contains t.id)) with
    | nil => exact absurd hu hne2
    | cons x xs => simp
  refine ⟨t, List.get?_mem hget, ?_⟩
  rw [hstep, if_neg hnotempty, hget]

/-- Membership in the matching pool forces the type and difficulty tags. -/
theorem matchingTemplates_mem (t : EventTemplate) (ty d : String)
    (h : t ∈ matchingTemplates ty d) : t.type = ty ∧ t.difficulty = d := by
  have h2 := List.mem_filter.mp h
  have h3 := List.mem_filter.mp h2.1
  exact ⟨by simpa using h3.2, by simpa using h2.2⟩

/-- Claim C7: for a type/difficulty pair with at least one matching
template, `getRandomTemplate` always returns a matching template; while
unused matching templates remain it returns one whose id is not yet used
(no repeat before exhaustion) and records it, and once the pool is
exhausted it resets the used-set and returns a previously used id instead
of failing. -/
theorem getRandomTemplate_cycles (rand : Nat) (ty d : String)
    (used : List String) (hne : matchingTemplates ty d ≠ []) :
    ∃ t used2,
      EventTemplateSelector.getRandomTemplate rand ty (some d) used
        = some (t, used2) ∧
      t ∈ matchingTemplates ty d ∧
      t.type = ty ∧ t.difficulty = d ∧
      ((matchingTemplates ty d).filter (fun t => !(used.contains t.id)) ≠ [] →
        used.contains t.id = false ∧ used2 = used ++ [t.id]) ∧
      ((matchingTemplates ty d).filter (fun t => !(used.contains t.id)) = [] →
        used.contains t.id = true ∧ used2 = [t.id]) := by
  by_cases hcase : (matchingTemplates ty d).filter
      (fun t => !(used.contains t.id)) = []
  · have hem : ((matchingTemplates ty d).filter
        (fun t => !(used.contains t.id))).isEmpty = true := by
      rw [hcase]
      rfl
    have hstep : EventTemplateSelector.getRandomTemplate rand ty (some d) used
        = EventTemplateSelector.getRandomTemplateAux rand ty (some d) 1 [] := by
      rw [show EventTemplateSelector.getRandomTemplate rand ty (some d) used
          = (if ((matchingTemplates ty d).filter
              (fun t => !(used.contains t.id))).isEmpty then
            EventTemplateSelector.getRandomTemplateAux rand ty (some d) 1 []
          else
            match ((matchingTemplates ty d).filter
                (fun t => !(used.contains t.id))).get?
                (rand % ((matchingTemplates ty d).filter
                  (fun t => !(used.contains t.id))).length) with
            | some t => some (t, EventTemplateSelector.setAdd used t.id)
            | none => none) from rfl, if_pos hem]
    have hclear : (matchingTemplates ty d).filter
        (fun t => !(([] : List String).contains t.id))
        = matchingTemplates ty d :=
      List.filter_eq_self.mpr (fun a _ => rfl)
    have hne0 : (matchingTemplates ty d).filter
        (fun t => !(([] : List String).contains t.id)) ≠ [] := by
      rw [hclear]
      exact hne
    obtain ⟨t, hmem, haux⟩ := getRandomTemplateAux_pass rand ty d [] 0 hne0
    rw [hclear] at hmem
    obtain ⟨hty, hdiff⟩ := matchingTemplates_mem t ty d hmem
    refine ⟨t, EventTemplateSelector.setAdd [] t.id, ?_, hmem, hty, hdiff,
      ?_, ?_⟩
    · rw [hstep]
      exact haux
    · intro hne3
      exact absurd hcase hne3
    · intro _
      constructor
      · have hall := List.filter_eq_nil.mp hcase t hmem
        simpa using hall
      · rfl
  · obtain ⟨t, hmem, haux⟩ := getRandomTemplateAux_pass rand ty d used 1 hcase
    have hmem2 := List.mem_filter.mp hmem
    obtain ⟨hty, hdiff⟩ := matchingTemplates_mem t ty d hmem2.1
    have hcf : used.contains t.id = false := by simpa using hmem2.2
    refine ⟨t, EventTemplateSelector.setAdd used t.id, haux, hmem2.1, hty,
      hdiff, ?_, ?_⟩
    · intro _
      refine ⟨hcf, ?_⟩
      have hnotmem : t.id ∉ used := by simpa using hcf
      simp [EventTemplateSelector.setAdd, hnotmem]
    · intro h0
      exact absurd h0 hcase

/-- Witness for claim C7: the easy combat pool is nonempty, so the call at
a fresh selector returns an easy combat template and records its id. -/
theorem getRandomTemplate_cycles_witness :
    matchingTemplates "combat" "easy" ≠ [] ∧
    (∃ t used2,
      EventTemplateSelector.getRandomTemplate 0 "combat" (some "easy") []
        = some (t, used2) ∧
      t ∈ matchingTemplates "combat" "easy" ∧
      t.type = "combat" ∧ t.difficulty = "easy" ∧
      ((matchingTemplates "combat" "easy").filter
          (fun t => !(([] : List String).contains t.id)) ≠ [] →
        ([] : List String).contains t.id = false ∧
        used2 = ([] : List String) ++ [t.id]) ∧
      ((matchingTemplates "combat" "easy").filter
          (fun t => !(([] : List String).contains t.id)) = [] →
        ([] : List String).contains t.id = true ∧ used2 = [t.id])) :=
  have hne : matchingTemplates "combat" "easy" ≠ [] := by decide
  ⟨hne, getRandomTemplate_cycles 0 "combat" "easy" [] hne⟩
